import Mathlib

/-!
Verification of the replay-buffer reconstruction pipeline of
`rl_zoo3/debug2.py` (function `debug`, lines 208-255).

The pipeline enumerates `.pkl` files of a hardcoded directory, builds one
goal-conditioned replay buffer and one plain replay buffer (both with the
hardcoded capacity 36090), replays recorded transitions into both buffers,
and dumps the two buffers to two hardcoded output paths.

The buffer data structures themselves live in the external library
`stable_baselines3`; they are modelled here from the specification's
data model (fixed-capacity circular store with a write cursor, a full
flag, and ring overwrite).  Everything else is translated directly from
the Python source.
-/

namespace RlZoo3Debug2

/-- Errors the pipeline can raise: `ioError` models `FileNotFoundError`
raised by `os.listdir` on a missing directory, `indexError` models the
`IndexError` raised by an out-of-range sequence subscript. -/
inductive Err where
  | ioError
  | indexError
  deriving DecidableEq, Repr

/-- The three parallel arrays of a dict-observation store
(`loaded_object.observations["observation"]` and friends). -/
structure DictArrays (α : Type) where
  observation : List α
  achieved_goal : List α
  desired_goal : List α
  deriving DecidableEq, Repr

/-- The deserialized pickled object (`loaded_object` in the source): a
recorded trajectory with parallel sequences and a count `pos` of valid
leading entries (`loaded_object.pos`). -/
structure TrajRecord (α : Type) where
  observations : DictArrays α
  next_observations : DictArrays α
  actions : List α
  rewards : List α
  dones : List α
  infos : List α
  pos : Nat
  deriving DecidableEq, Repr

/-- A structured (goal-conditioned) observation: the dict passed to
`replay_buffer.add` in the source. -/
structure DictObs (α : Type) where
  observation : α
  achieved_goal : α
  desired_goal : α
  deriving DecidableEq, Repr

/-- One stored transition: the six arguments of a buffer `add` call
(`obs, next_obs, action, reward, done, infos`). -/
structure Transition (O α : Type) where
  obs : O
  next_obs : O
  action : α
  reward : α
  done : α
  infos : α
  deriving DecidableEq, Repr

/-- Modelled from the spec: the external `stable_baselines3`
`ReplayBuffer` / `HerReplayBuffer` insertion API (spec section 3): a
fixed-capacity circular store of transitions that tracks the current
write position `pos`, a `full` flag set once the cursor wraps, and the
count of insert calls `n_adds` (the spec's total inserted count). -/
structure RingBuffer (O α : Type) where
  buffer_size : Nat
  slots : List (Option (Transition O α))
  pos : Nat
  full : Bool
  n_adds : Nat
  deriving DecidableEq, Repr

/-- A freshly constructed, empty buffer of capacity `cap`. -/
def RingBuffer.init (O α : Type) (cap : Nat) : RingBuffer O α :=
  ⟨cap, List.replicate cap none, 0, false, 0⟩

/-- Modelled from the spec: one `add` call writes at the cursor, advances
it, and wraps to 0 (setting `full`) once it reaches the capacity —
ring overwrite, oldest entry replaced first. -/
def RingBuffer.add (b : RingBuffer O α) (t : Transition O α) : RingBuffer O α :=
  if b.pos + 1 = b.buffer_size then
    ⟨b.buffer_size, b.slots.set b.pos (some t), 0, true, b.n_adds + 1⟩
  else
    ⟨b.buffer_size, b.slots.set b.pos (some t), b.pos + 1, b.full, b.n_adds + 1⟩

/-- The number of transitions the buffer reports as stored
(`size()` of the external buffer: capacity once full, else the cursor). -/
def RingBuffer.size (b : RingBuffer O α) : Nat :=
  if b.full then b.buffer_size else b.pos

/-- The transition stored at slot `i`, if any. -/
def slotAt (b : RingBuffer O α) (i : Nat) : Option (Transition O α) :=
  ((b.slots.get? i).join : Option (Transition O α))

/-- Folding a whole sequence of `add` calls into a fresh buffer. -/
def addAll {O α : Type} (cap : Nat) (ts : List (Transition O α)) : RingBuffer O α :=
  ts.foldl RingBuffer.add (RingBuffer.init O α cap)

/-- The pair of buffers built by the pipeline: `replay_buffer` is the
goal-conditioned `HerReplayBuffer`, `plain_replay_buffer` the flat
`ReplayBuffer` (source lines 216-217). -/
structure Buffers (α : Type) where
  replay_buffer : RingBuffer (DictObs α) α
  plain_replay_buffer : RingBuffer α α
  deriving DecidableEq, Repr

/-- Both buffers freshly constructed with the same capacity
(source lines 216-217, both called with the literal 36090). -/
def initBuffers (α : Type) (cap : Nat) : Buffers α :=
  ⟨RingBuffer.init (DictObs α) α cap, RingBuffer.init α α cap⟩

/-- The values read from the record at timestep `i`: the ten sequence
subscripts evaluated by the two `add` calls in the loop body
(source lines 225-248). -/
structure StepVals (α : Type) where
  obs : α
  ach : α
  des : α
  nobs : α
  nach : α
  ndes : α
  act : α
  rew : α
  don : α
  inf : α
  deriving DecidableEq, Repr

/-- The ten subscripts `loaded_object.<seq>[i]` of one loop iteration;
any out-of-range access makes the whole iteration fail (Python raises
`IndexError` before either `add` call mutates a buffer). -/
def readStep (r : TrajRecord α) (i : Nat) : Option (StepVals α) := do
  let o ← r.observations.observation.get? i
  let ag ← r.observations.achieved_goal.get? i
  let dg ← r.observations.desired_goal.get? i
  let no2 ← r.next_observations.observation.get? i
  let nag ← r.next_observations.achieved_goal.get? i
  let ndg ← r.next_observations.desired_goal.get? i
  let a ← r.actions.get? i
  let rew ← r.rewards.get? i
  let dn ← r.dones.get? i
  let inf ← r.infos.get? i
  pure ⟨o, ag, dg, no2, nag, ndg, a, rew, dn, inf⟩

/-- One loop iteration (source lines 224-248): read the timestep's
values, then insert the structured transition into `replay_buffer` and
the flat-observation transition into `plain_replay_buffer`, using the
same action/reward/done/infos values for both. -/
def step (r : TrajRecord α) (i : Nat) (bs : Buffers α) : Except Err (Buffers α) :=
  match readStep r i with
  | none => .error .indexError
  | some v =>
      .ok ⟨bs.replay_buffer.add ⟨⟨v.obs, v.ach, v.des⟩, ⟨v.nobs, v.nach, v.ndes⟩,
             v.act, v.rew, v.don, v.inf⟩,
           bs.plain_replay_buffer.add ⟨v.obs, v.nobs, v.act, v.rew, v.don, v.inf⟩⟩

/-- `for i in range(loaded_object.pos)` (source line 224): iterate `fuel`
steps starting at index `i`, aborting on the first error. -/
def insertLoop (r : TrajRecord α) : Nat → Nat → Buffers α → Except Err (Buffers α)
  | _, 0, bs => .ok bs
  | i, fuel + 1, bs =>
      match step r i bs with
      | .error e => .error e
      | .ok bs' => insertLoop r (i + 1) fuel bs'

/-- Insert the first `r.pos` transitions of record `r` into both buffers. -/
def insertRecord (r : TrajRecord α) (bs : Buffers α) : Except Err (Buffers α) :=
  insertLoop r 0 r.pos bs

/-- A directory listing: filenames with the trajectory record stored in
each file (content of non-`.pkl` entries is never opened). -/
structure Dir (α : Type) where
  entries : List (String × TrajRecord α)
  deriving DecidableEq, Repr

/-- Python's `str.endswith`, computed on the character lists of the two
strings (the library's `String.endsWith` is equivalent but is not
reducible by the kernel). -/
def strEndsWith (s pat : String) : Bool :=
  List.isSuffixOf pat.data s.data

/-- The `file_paths` enumeration (source lines 211-214): the entries
whose filename ends in `".pkl"`, in listing order. -/
def pklEntries (d : Dir α) : List (String × TrajRecord α) :=
  d.entries.filter (fun e => strEndsWith e.1 ".pkl")

/-- The per-record loop (source lines 219-248).  The loop ranges over
`file_paths`, but its body opens the variable `file_path`, which after
the enumeration loop holds the LAST `.pkl` path; so each iteration
re-reads the last enumerated record.  When no `.pkl` file exists the
loop body never runs (and `file_path` is never referenced). -/
def processAll (d : Dir α) (bs : Buffers α) : Except Err (Buffers α) :=
  match (pklEntries d).getLast? with
  | none => .ok bs
  | some last => (pklEntries d).foldlM (fun b _ => insertRecord last.2 b) bs

/-- Inserting record `r` a total of `n` times (one `with open(file_path)`
block per enumerated file); used to characterise `processAll`. -/
def repeatInsertM (r : TrajRecord α) : Nat → Buffers α → Except Err (Buffers α)
  | 0, bs => .ok bs
  | n + 1, bs =>
      match insertRecord r bs with
      | .error e => .error e
      | .ok bs' => repeatInsertM r n bs'

/-- Buffer construction plus the per-record loop, for a given capacity. -/
def runPipeline (cap : Nat) (d : Dir α) : Except Err (Buffers α) :=
  processAll d (initBuffers α cap)

/-- Hardcoded input directory (source line 210). -/
def DIRECTORY_PATH : String :=
  "/home/deniz.seven/Desktop/Thesis_Documents/agent_recordings/Stage3_v4"

/-- Hardcoded output path of the goal-conditioned buffer (source line 249). -/
def SAVE_PATH : String :=
  "/home/deniz.seven/Desktop/Thesis_Documents/agent_recordings/Stage3_v4/replay_buffer_40.pkl"

/-- Hardcoded output path of the plain buffer (source line 253). -/
def PLAIN_SAVE_PATH : String :=
  "/home/deniz.seven/Desktop/Thesis_Documents/agent_recordings/Stage3_v4/plain_replay_buffer_40.pkl"

/-- `record_size = 5000` (source line 208); assigned but never used. -/
def RECORD_SIZE : Nat := 5000

/-- What the run persists: the two fully built buffers and the two
paths they are pickled to (source lines 249-255). -/
structure Output (α : Type) where
  saved_replay_buffer : RingBuffer (DictObs α) α
  saved_plain_replay_buffer : RingBuffer α α
  save_path : String
  plain_save_path : String
  deriving DecidableEq, Repr

/-- The reconstruction part of `debug()` (source lines 208-255).
`save_folder` is the caller's `--save-folder` argument, which the source
parses but never uses; `listing` is the state of the hardcoded input
directory (`none` when it does not exist, in which case `os.listdir`
raises).  Nothing is persisted unless the whole loop succeeds: both
`pickle.dump` calls happen after the loop. -/
def debug {α : Type} (save_folder : String) (listing : Option (Dir α)) :
    Except Err (Output α) :=
  match listing with
  | none => .error .ioError
  | some d =>
      (runPipeline 36090 d).map fun bs =>
        ⟨bs.replay_buffer, bs.plain_replay_buffer, SAVE_PATH, PLAIN_SAVE_PATH⟩

/-- The least length among the ten sequences a loop iteration subscripts:
indices below it are readable, the first index at or above it raises. -/
def minLen (r : TrajRecord α) : Nat :=
  min r.observations.observation.length <|
  min r.observations.achieved_goal.length <|
  min r.observations.desired_goal.length <|
  min r.next_observations.observation.length <|
  min r.next_observations.achieved_goal.length <|
  min r.next_observations.desired_goal.length <|
  min r.actions.length <|
  min r.rewards.length <|
  min r.dones.length r.infos.length

/-- The pairing relation between a slot of the goal-conditioned buffer
and the same slot of the plain buffer: both empty, or both holding the
same action/reward/done/infos with the plain observation equal to the
`observation` component of the structured one. -/
def slotPaired {α : Type} :
    Option (Transition (DictObs α) α) → Option (Transition α α) → Prop
  | none, none => True
  | some th, some tp =>
      th.action = tp.action ∧ th.reward = tp.reward ∧ th.done = tp.done ∧
      th.infos = tp.infos ∧ th.obs.observation = tp.obs ∧
      th.next_obs.observation = tp.next_obs
  | _, _ => False

/-- Invariant maintained by the paired inserts: both buffers carry the
configured capacity, their cursors, full flags, insert counters and slot
lists move in lockstep, and every pair of slots is paired. -/
def Inv {α : Type} (cap : Nat) (bs : Buffers α) : Prop :=
  bs.replay_buffer.buffer_size = cap ∧
  bs.plain_replay_buffer.buffer_size = cap ∧
  bs.replay_buffer.slots.length = bs.plain_replay_buffer.slots.length ∧
  bs.replay_buffer.pos = bs.plain_replay_buffer.pos ∧
  bs.replay_buffer.n_adds = bs.plain_replay_buffer.n_adds ∧
  ∀ i, slotPaired (slotAt bs.replay_buffer i) (slotAt bs.plain_replay_buffer i)

/-! ### Concrete data used by witnesses and counterexamples -/

/-- A well-formed record with one valid transition. -/
def recSmall : TrajRecord Nat :=
  ⟨⟨[100], [101], [102]⟩, ⟨[110], [111], [112]⟩, [1], [3], [5], [7], 1⟩

/-- A well-formed record with two valid transitions. -/
def rec2 : TrajRecord Nat :=
  ⟨⟨[100, 200], [101, 201], [102, 202]⟩, ⟨[110, 210], [111, 211], [112, 212]⟩,
   [1, 2], [3, 4], [5, 6], [7, 8], 2⟩

/-- A well-formed record with three valid transitions. -/
def rec3 : TrajRecord Nat :=
  ⟨⟨[100, 200, 300], [101, 201, 301], [102, 202, 302]⟩,
   ⟨[110, 210, 310], [111, 211, 311], [112, 212, 312]⟩,
   [1, 2, 3], [4, 5, 6], [7, 8, 9], [10, 11, 12], 3⟩

/-- A corrupt record: declared `pos` (valid count) is 10 but every
sequence actually holds only 3 entries. -/
def badRec : TrajRecord Nat :=
  ⟨⟨[1, 2, 3], [1, 2, 3], [1, 2, 3]⟩, ⟨[1, 2, 3], [1, 2, 3], [1, 2, 3]⟩,
   [1, 2, 3], [1, 2, 3], [1, 2, 3], [1, 2, 3], 10⟩

/-- Two well-formed records with different valid counts (1 and 2). -/
def twoRecDir : Dir Nat := ⟨[("a.pkl", recSmall), ("b.pkl", rec2)]⟩

/-- A corrupt record followed by a well-formed one. -/
def badFirstDir : Dir Nat := ⟨[("a.pkl", badRec), ("b.pkl", recSmall)]⟩

/-- A single corrupt record. -/
def badOnlyDir : Dir Nat := ⟨[("bad.pkl", badRec)]⟩

/-- A single well-formed two-transition record. -/
def oneRecDir : Dir Nat := ⟨[("ep1.pkl", rec2)]⟩

/-- A directory with a file, but no `.pkl` file. -/
def noPklDir : Dir Nat := ⟨[("notes.txt", recSmall)]⟩

/-- A single well-formed three-transition record. -/
def threeStepDir : Dir Nat := ⟨[("ep.pkl", rec3)]⟩

/-- The structured transitions of `rec2` as stored by the pipeline. -/
def ht0 : Transition (DictObs Nat) Nat := ⟨⟨100, 101, 102⟩, ⟨110, 111, 112⟩, 1, 3, 5, 7⟩

def ht1 : Transition (DictObs Nat) Nat := ⟨⟨200, 201, 202⟩, ⟨210, 211, 212⟩, 2, 4, 6, 8⟩

/-- The flat transitions of `rec2` as stored by the pipeline. -/
def pt0 : Transition Nat Nat := ⟨100, 110, 1, 3, 5, 7⟩

def pt1 : Transition Nat Nat := ⟨200, 210, 2, 4, 6, 8⟩

/-- The buffers produced by running the pipeline with capacity 3 on
`oneRecDir`. -/
def smallBS : Buffers Nat :=
  ⟨⟨3, [some ht0, some ht1, none], 2, false, 2⟩,
   ⟨3, [some pt0, some pt1, none], 2, false, 2⟩⟩

/-- The flat transitions of `rec3`. -/
def qt0 : Transition Nat Nat := ⟨100, 110, 1, 4, 7, 10⟩

def qt1 : Transition Nat Nat := ⟨200, 210, 2, 5, 8, 11⟩

def qt2 : Transition Nat Nat := ⟨300, 310, 3, 6, 9, 12⟩

def qts : List (Transition Nat Nat) := [qt0, qt1, qt2]

/-- The output of a successful run on `oneRecDir` (used as a concrete
witness value). -/
def hardOut : Output Nat :=
  (debug "/tmp/elsewhere" (some oneRecDir)).toOption.getD
    ⟨RingBuffer.init (DictObs Nat) Nat 0, RingBuffer.init Nat Nat 0, "", ""⟩

/-! ### Reading a timestep -/

theorem lt_length_of_get?_eq_some {β : Type} {l : List β} {i : Nat} {x : β}
    (h : l.get? i = some x) : i < l.length := by
  rcases List.get?_eq_some.1 h with ⟨hlt, _⟩
  exact hlt

theorem readStep_isSome {α : Type} {r : TrajRecord α} {i : Nat} (h : i < minLen r) :
    (readStep r i).isSome := by
  simp only [minLen, lt_min_iff] at h
  obtain ⟨h1, h2, h3, h4, h5, h6, h7, h8, h9, h10⟩ := h
  have e1 := List.getElem?_eq_getElem h1
  have e2 := List.getElem?_eq_getElem h2
  have e3 := List.getElem?_eq_getElem h3
  have e4 := List.getElem?_eq_getElem h4
  have e5 := List.getElem?_eq_getElem h5
  have e6 := List.getElem?_eq_getElem h6
  have e7 := List.getElem?_eq_getElem h7
  have e8 := List.getElem?_eq_getElem h8
  have e9 := List.getElem?_eq_getElem h9
  have e10 := List.getElem?_eq_getElem h10
  simp [readStep, e1, e2, e3, e4, e5, e6, e7, e8, e9, e10]

theorem readStep_lt {α : Type} {r : TrajRecord α} {i : Nat} {v : StepVals α}
    (h : readStep r i = some v) : i < minLen r := by
  simp only [readStep, bind, Option.bind_eq_some, pure] at h
  obtain ⟨o, ho, ag, hag, dg, hdg, no2, hno, nag, hnag, ndg, hndg, a, ha,
    rew, hrew, dn, hdn, inf, hinf, -⟩ := h
  simp only [minLen, lt_min_iff]
  exact ⟨lt_length_of_get?_eq_some ho, lt_length_of_get?_eq_some hag,
    lt_length_of_get?_eq_some hdg, lt_length_of_get?_eq_some hno,
    lt_length_of_get?_eq_some hnag, lt_length_of_get?_eq_some hndg,
    lt_length_of_get?_eq_some ha, lt_length_of_get?_eq_some hrew,
    lt_length_of_get?_eq_some hdn, lt_length_of_get?_eq_some hinf⟩

theorem readStep_none {α : Type} {r : TrajRecord α} {i : Nat} (h : minLen r ≤ i) :
    readStep r i = none := by
  cases hv : readStep r i with
  | none => rfl
  | some v => exact absurd (readStep_lt hv) (not_lt.2 h)

/-! ### One paired insert -/

theorem step_err {α : Type} {r : TrajRecord α} {i : Nat} (bs : Buffers α)
    (h : minLen r ≤ i) : step r i bs = .error .indexError := by
  simp [step, readStep_none h]

theorem step_ok_inv {α : Type} {r : TrajRecord α} {i : Nat} {bs bs' : Buffers α}
    (h : step r i bs = .ok bs') :
    ∃ v, readStep r i = some v ∧
      bs' = ⟨bs.replay_buffer.add ⟨⟨v.obs, v.ach, v.des⟩, ⟨v.nobs, v.nach, v.ndes⟩,
               v.act, v.rew, v.don, v.inf⟩,
             bs.plain_replay_buffer.add ⟨v.obs, v.nobs, v.act, v.rew, v.don, v.inf⟩⟩ := by
  cases hv : readStep r i with
  | none => simp [step, hv] at h
  | some v =>
      refine ⟨v, rfl, ?_⟩
      simp only [step, hv, Except.ok.injEq] at h
      exact h.symm

theorem step_ok_of_readStep {α : Type} {r : TrajRecord α} {i : Nat} {v : StepVals α}
    (bs : Buffers α) (hv : readStep r i = some v) :
    step r i bs = .ok ⟨bs.replay_buffer.add ⟨⟨v.obs, v.ach, v.des⟩,
      ⟨v.nobs, v.nach, v.ndes⟩, v.act, v.rew, v.don, v.inf⟩,
      bs.plain_replay_buffer.add ⟨v.obs, v.nobs, v.act, v.rew, v.don, v.inf⟩⟩ := by
  simp [step, hv]

/-! ### Ring-buffer slot bookkeeping -/

theorem slotAt_init {O α : Type} (cap i : Nat) :
    slotAt (RingBuffer.init O α cap) i = none := by
  unfold slotAt RingBuffer.init
  cases h : (List.replicate cap (none : Option (Transition O α))).get? i with
  | none => rfl
  | some x =>
      have hx := List.eq_of_mem_replicate (List.get?_mem h)
      rw [hx]
      rfl

theorem add_buffer_size {O α : Type} (b : RingBuffer O α) (t : Transition O α) :
    (b.add t).buffer_size = b.buffer_size := by
  unfold RingBuffer.add; split <;> rfl

theorem add_n_adds {O α : Type} (b : RingBuffer O α) (t : Transition O α) :
    (b.add t).n_adds = b.n_adds + 1 := by
  unfold RingBuffer.add; split <;> rfl

theorem add_slots {O α : Type} (b : RingBuffer O α) (t : Transition O α) :
    (b.add t).slots = b.slots.set b.pos (some t) := by
  unfold RingBuffer.add; split <;> rfl

theorem add_slots_length {O α : Type} (b : RingBuffer O α) (t : Transition O α) :
    (b.add t).slots.length = b.slots.length := by
  rw [add_slots, List.length_set]

theorem add_pos_eq {O O' α : Type} (b : RingBuffer O α) (b' : RingBuffer O' α)
    (t : Transition O α) (t' : Transition O' α)
    (hp : b.pos = b'.pos) (hs : b.buffer_size = b'.buffer_size) :
    (b.add t).pos = (b'.add t').pos := by
  unfold RingBuffer.add
  rw [hp, hs]
  split <;> rfl

theorem slotAt_add_self {O α : Type} (b : RingBuffer O α) (t : Transition O α)
    (h : b.pos < b.slots.length) : slotAt (b.add t) b.pos = some t := by
  simp [slotAt, add_slots, List.getElem?_set, h]

theorem slotAt_add_self_oob {O α : Type} (b : RingBuffer O α) (t : Transition O α)
    (h : b.slots.length ≤ b.pos) : slotAt (b.add t) b.pos = none := by
  have h' : ¬ b.pos < b.slots.length := not_lt.2 h
  simp [slotAt, add_slots, List.getElem?_set, h', List.getElem?_eq_none h]

theorem slotAt_add_other {O α : Type} (b : RingBuffer O α) (t : Transition O α)
    (j : Nat) (h : b.pos ≠ j) : slotAt (b.add t) j = slotAt b j := by
  simp [slotAt, add_slots, List.getElem?_set, h]

/-! ### The paired-buffers invariant is preserved -/

theorem initBuffers_inv {α : Type} (cap : Nat) : Inv cap (initBuffers α cap) := by
  refine ⟨rfl, rfl, by simp [initBuffers, RingBuffer.init], rfl, rfl, ?_⟩
  intro i
  have h1 : (initBuffers α cap).replay_buffer = RingBuffer.init (DictObs α) α cap := rfl
  have h2 : (initBuffers α cap).plain_replay_buffer = RingBuffer.init α α cap := rfl
  rw [h1, h2, slotAt_init, slotAt_init]
  trivial

theorem Inv.preserve_step {α : Type} {cap : Nat} {r : TrajRecord α} {i : Nat}
    {bs bs' : Buffers α} (hI : Inv cap bs) (h : step r i bs = .ok bs') :
    Inv cap bs' := by
  obtain ⟨v, hv, rfl⟩ := step_ok_inv h
  obtain ⟨hs1, hs2, hlen, hpos, hadds, hslot⟩ := hI
  refine ⟨?_, ?_, ?_, ?_, ?_, ?_⟩
  · show (bs.replay_buffer.add _).buffer_size = cap
    rw [add_buffer_size]; exact hs1
  · show (bs.plain_replay_buffer.add _).buffer_size = cap
    rw [add_buffer_size]; exact hs2
  · show (bs.replay_buffer.add _).slots.length = (bs.plain_replay_buffer.add _).slots.length
    rw [add_slots_length, add_slots_length]; exact hlen
  · exact add_pos_eq _ _ _ _ hpos (hs1.trans hs2.symm)
  · show (bs.replay_buffer.add _).n_adds = (bs.plain_replay_buffer.add _).n_adds
    rw [add_n_adds, add_n_adds, hadds]
  · intro j
    show slotPaired (slotAt (bs.replay_buffer.add _) j)
      (slotAt (bs.plain_replay_buffer.add _) j)
    by_cases hj : bs.replay_buffer.pos = j
    · subst hj
      rcases Nat.lt_or_ge bs.replay_buffer.pos bs.replay_buffer.slots.length with hlt | hge
      · have hlt2 : bs.plain_replay_buffer.pos < bs.plain_replay_buffer.slots.length := by
          rw [← hpos, ← hlen]; exact hlt
        rw [slotAt_add_self _ _ hlt]
        rw [show slotAt (bs.plain_replay_buffer.add ⟨v.obs, v.nobs, v.act, v.rew, v.don, v.inf⟩)
              bs.replay_buffer.pos
            = slotAt (bs.plain_replay_buffer.add ⟨v.obs, v.nobs, v.act, v.rew, v.don, v.inf⟩)
              bs.plain_replay_buffer.pos from by rw [hpos]]
        rw [slotAt_add_self _ _ hlt2]
        exact ⟨rfl, rfl, rfl, rfl, rfl, rfl⟩
      · have hge2 : bs.plain_replay_buffer.slots.length ≤ bs.plain_replay_buffer.pos := by
          rw [← hpos, ← hlen]; exact hge
        rw [slotAt_add_self_oob _ _ hge]
        rw [show slotAt (bs.plain_replay_buffer.add ⟨v.obs, v.nobs, v.act, v.rew, v.don, v.inf⟩)
              bs.replay_buffer.pos
            = slotAt (bs.plain_replay_buffer.add ⟨v.obs, v.nobs, v.act, v.rew, v.don, v.inf⟩)
              bs.plain_replay_buffer.pos from by rw [hpos]]
        rw [slotAt_add_self_oob _ _ hge2]
        trivial
    · have hj2 : bs.plain_replay_buffer.pos ≠ j := by rw [← hpos]; exact hj
      rw [slotAt_add_other _ _ _ hj, slotAt_add_other _ _ _ hj2]
      exact hslot j

/-! ### Loop lemmas -/

theorem except_bind_error {β γ : Type} (e : Err) (f : β → Except Err γ) :
    (Except.error e >>= f) = Except.error e := rfl

theorem except_bind_ok {β γ : Type} (b : β) (f : β → Except Err γ) :
    (Except.ok b >>= f) = f b := rfl

theorem insertLoop_inv {α : Type} {cap : Nat} (r : TrajRecord α) :
    ∀ (fuel i : Nat) (bs bs' : Buffers α), Inv cap bs →
      insertLoop r i fuel bs = .ok bs' → Inv cap bs' := by
  intro fuel
  induction fuel with
  | zero =>
      intro i bs bs' hI h
      simp only [insertLoop] at h
      injection h with h
      exact h ▸ hI
  | succ n ih =>
      intro i bs bs' hI h
      simp only [insertLoop] at h
      cases hst : step r i bs with
      | error e => rw [hst] at h; simp at h
      | ok bs1 =>
          rw [hst] at h
          exact ih (i + 1) bs1 bs' (Inv.preserve_step hI hst) h

theorem insertRecord_inv {α : Type} {cap : Nat} {r : TrajRecord α}
    {bs bs' : Buffers α} (hI : Inv cap bs) (h : insertRecord r bs = .ok bs') :
    Inv cap bs' :=
  insertLoop_inv r r.pos 0 bs bs' hI h

theorem repeatInsertM_inv {α : Type} {cap : Nat} (r : TrajRecord α) :
    ∀ (n : Nat) (bs bs' : Buffers α), Inv cap bs →
      repeatInsertM r n bs = .ok bs' → Inv cap bs' := by
  intro n
  induction n with
  | zero =>
      intro bs bs' hI h
      simp only [repeatInsertM] at h
      injection h with h
      exact h ▸ hI
  | succ n ih =>
      intro bs bs' hI h
      simp only [repeatInsertM] at h
      cases hins : insertRecord r bs with
      | error e => rw [hins] at h; simp at h
      | ok bs1 =>
          rw [hins] at h
          exact ih bs1 bs' (insertRecord_inv hI hins) h

theorem foldlM_const_insertRecord {α β : Type} (r : TrajRecord α) :
    ∀ (l : List β) (bs : Buffers α),
      List.foldlM (fun b _ => insertRecord r b) bs l = repeatInsertM r l.length bs := by
  intro l
  induction l with
  | nil => intro bs; rfl
  | cons x xs ih =>
      intro bs
      rw [List.foldlM_cons]
      cases h : insertRecord r bs with
      | error e => simp [repeatInsertM, h, except_bind_error]
      | ok bs1 => simp [repeatInsertM, h, except_bind_ok, ih bs1]

theorem processAll_eq_repeat {α : Type} {d : Dir α} {e : String × TrajRecord α}
    (h : (pklEntries d).getLast? = some e) (bs : Buffers α) :
    processAll d bs = repeatInsertM e.2 (pklEntries d).length bs := by
  unfold processAll
  rw [h]
  exact foldlM_const_insertRecord e.2 (pklEntries d) bs

theorem processAll_inv {α : Type} {cap : Nat} {d : Dir α} {bs bs' : Buffers α}
    (hI : Inv cap bs) (h : processAll d bs = .ok bs') : Inv cap bs' := by
  cases hl : (pklEntries d).getLast? with
  | none =>
      simp only [processAll, hl] at h
      injection h with h
      exact h ▸ hI
  | some e =>
      rw [processAll_eq_repeat hl] at h
      exact repeatInsertM_inv e.2 _ bs bs' hI h

theorem runPipeline_inv {α : Type} {cap : Nat} {d : Dir α} {bs : Buffers α}
    (h : runPipeline cap d = .ok bs) : Inv cap bs :=
  processAll_inv (initBuffers_inv cap) h

/-! ### Failure of overlong records -/

theorem insertLoop_err {α : Type} (r : TrajRecord α) :
    ∀ (fuel i : Nat) (bs : Buffers α), i ≤ minLen r → minLen r < i + fuel →
      insertLoop r i fuel bs = .error .indexError := by
  intro fuel
  induction fuel with
  | zero => intro i bs h1 h2; omega
  | succ n ih =>
      intro i bs h1 h2
      rcases eq_or_lt_of_le h1 with heq | hlt
      · simp only [insertLoop]
        rw [step_err bs (le_of_eq heq.symm)]
      · have hsome := readStep_isSome (r := r) (i := i) hlt
        obtain ⟨v, hv⟩ := Option.isSome_iff_exists.1 hsome
        simp only [insertLoop, step_ok_of_readStep bs hv]
        exact ih (i + 1) _ (by omega) (by omega)

theorem insertRecord_err {α : Type} {r : TrajRecord α} (bs : Buffers α)
    (h : minLen r < r.pos) : insertRecord r bs = .error .indexError :=
  insertLoop_err r r.pos 0 bs (Nat.zero_le _) (by omega)

/-! ### Ring-overwrite characterisation -/

theorem take_succ_set {β : Type} :
    ∀ (l : List β) (p : Nat) (x : β), p < l.length →
      (l.set p x).take (p + 1) = l.take p ++ [x] := by
  intro l
  induction l with
  | nil => intro p x h; simp at h
  | cons a t ih =>
      intro p x h
      cases p with
      | zero => rfl
      | succ p =>
          have hp : p < t.length := by simp [List.length_cons] at h; omega
          show a :: (t.set p x).take (p + 1) = a :: (t.take p ++ [x])
          rw [ih p x hp]

theorem drop_succ_set {β : Type} (l : List β) (p : Nat) (x : β) :
    (l.set p x).drop (p + 1) = l.drop (p + 1) := by
  rw [List.drop_set]
  simp

theorem rotate_set_succ {β : Type} (l : List β) (p : Nat) (x : β) (h : p < l.length) :
    (l.set p x).rotate (p + 1) = (l.rotate p).tail ++ [x] := by
  have hlen : (l.set p x).length = l.length := List.length_set l p x
  rw [List.rotate_eq_drop_append_take (by rw [hlen]; omega)]
  rw [drop_succ_set, take_succ_set l p x h]
  rw [List.rotate_eq_drop_append_take (le_of_lt h)]
  rw [List.drop_eq_get_cons h]
  simp only [List.cons_append, List.tail_cons, List.append_assoc]

theorem set_append_length {β : Type} :
    ∀ (l l' : List β) (x : β), (l ++ l').set l.length x = l ++ l'.set 0 x := by
  intro l
  induction l with
  | nil => intro l' x; rfl
  | cons a tl ih =>
      intro l' x
      show a :: (tl ++ l').set tl.length x = a :: (tl ++ l'.set 0 x)
      rw [ih]

theorem addAll_spec {O α : Type} (cap : Nat) (hcap : 0 < cap)
    (ts : List (Transition O α)) :
    (addAll cap ts).buffer_size = cap ∧
    (addAll cap ts).pos = ts.length % cap ∧
    (addAll cap ts).slots.length = cap ∧
    (ts.length < cap →
      (addAll cap ts).slots = ts.map some ++ List.replicate (cap - ts.length) none) ∧
    (cap ≤ ts.length →
      ((addAll cap ts).slots).rotate ((addAll cap ts).pos)
        = (ts.drop (ts.length - cap)).map some) := by
  induction ts using List.reverseRecOn with
  | nil =>
      refine ⟨rfl, by simp [addAll, RingBuffer.init], by simp [addAll, RingBuffer.init],
        ?_, ?_⟩
      · intro _; simp [addAll, RingBuffer.init]
      · intro hc; simp at hc; omega
  | append_singleton ts t ih =>
      obtain ⟨hsz, hpos, hlen, hA, hB⟩ := ih
      have hstep : addAll cap (ts ++ [t]) = (addAll cap ts).add t := by
        simp [addAll, List.foldl_append]
      have hmodlt : ts.length % cap < cap := Nat.mod_lt _ hcap
      have hposlt : (addAll cap ts).pos < cap := by rw [hpos]; exact hmodlt
      have hmm : (ts.length + 1) % cap = (ts.length % cap + 1) % cap :=
        (Nat.mod_add_mod ts.length cap 1).symm
      have hnp : ((addAll cap ts).add t).pos = (ts.length + 1) % cap := by
        unfold RingBuffer.add
        split
        next hcond =>
          rw [hsz, hpos] at hcond
          show 0 = (ts.length + 1) % cap
          rw [hmm, hcond, Nat.mod_self]
        next hcond =>
          rw [hsz, hpos] at hcond
          show (addAll cap ts).pos + 1 = (ts.length + 1) % cap
          rw [hmm, Nat.mod_eq_of_lt (by omega), hpos]
      refine ⟨by rw [hstep, add_buffer_size]; exact hsz,
        by rw [hstep, hnp]; simp,
        by rw [hstep, add_slots_length]; exact hlen, ?_, ?_⟩
      · -- still below capacity after this add
        intro hk1
        simp only [List.length_append, List.length_singleton] at hk1
        have hk : ts.length < cap := by omega
        have hposk : (addAll cap ts).pos = ts.length := by
          rw [hpos, Nat.mod_eq_of_lt hk]
        rw [hstep, add_slots, hposk, hA hk]
        have hsa := set_append_length (List.map some ts)
          (List.replicate (cap - ts.length) none) (some t)
        rw [List.length_map] at hsa
        rw [hsa]
        have hrep : cap - ts.length = (cap - (ts.length + 1)) + 1 := by omega
        rw [hrep, List.replicate_succ, List.set_cons_zero]
        simp [List.map_append, List.append_assoc]
      · -- at or above capacity after this add
        intro hc1
        simp only [List.length_append, List.length_singleton] at hc1
        rcases eq_or_lt_of_le hc1 with hceq | hclt
        · -- the add that exactly fills the buffer
          have hk : ts.length < cap := by omega
          have hposk : (addAll cap ts).pos = ts.length := by
            rw [hpos, Nat.mod_eq_of_lt hk]
          have hp0 : ((addAll cap ts).add t).pos = 0 := by
            rw [hnp, ← hceq, Nat.mod_self]
          rw [hstep, hp0, List.rotate_zero, add_slots, hposk, hA hk]
          have hsa := set_append_length (List.map some ts)
            (List.replicate (cap - ts.length) none) (some t)
          rw [List.length_map] at hsa
          rw [hsa]
          have hrep : cap - ts.length = 1 := by omega
          rw [hrep]
          have hdrop : ts.length + 1 - cap = 0 := by omega
          simp only [List.length_append, List.length_singleton]
          rw [hdrop, List.drop_zero, List.map_append]
          rfl
        · -- the buffer was already full: ring overwrite
          have hck : cap ≤ ts.length := by omega
          have hrot := hB hck
          have hposlen : (addAll cap ts).pos < (addAll cap ts).slots.length := by
            rw [hlen]; exact hposlt
          have hsetlen :
              ((addAll cap ts).slots.set (addAll cap ts).pos (some t)).length = cap := by
            rw [List.length_set]; exact hlen
          have hmod2 : (ts.length + 1) % cap = ((addAll cap ts).pos + 1) % cap := by
            rw [hmm, hpos]
          calc ((addAll cap (ts ++ [t])).slots).rotate ((addAll cap (ts ++ [t])).pos)
              = ((addAll cap ts).slots.set (addAll cap ts).pos (some t)).rotate
                  ((ts.length + 1) % cap) := by rw [hstep, add_slots, hnp]
            _ = ((addAll cap ts).slots.set (addAll cap ts).pos (some t)).rotate
                  ((addAll cap ts).pos + 1) := by
                  have hrm := List.rotate_mod
                    ((addAll cap ts).slots.set (addAll cap ts).pos (some t))
                    ((addAll cap ts).pos + 1)
                  rw [hsetlen] at hrm
                  rw [hmod2]
                  exact hrm
            _ = (((addAll cap ts).slots).rotate ((addAll cap ts).pos)).tail ++ [some t] :=
                  rotate_set_succ _ _ _ hposlen
            _ = ((ts.drop (ts.length - cap)).map some).tail ++ [some t] := by rw [hrot]
            _ = ((ts.drop (ts.length - cap)).tail).map some ++ [some t] := by
                  rw [List.map_tail]
            _ = (ts.drop (ts.length - cap + 1)).map some ++ [some t] := by
                  rw [List.tail_drop]
            _ = ((ts ++ [t]).drop (ts.length + 1 - cap)).map some := by
                  have h1 : ts.length + 1 - cap = (ts.length - cap) + 1 := by omega
                  have h2 : (ts.length - cap) + 1 ≤ ts.length := by omega
                  rw [h1, List.drop_append_eq_append_drop,
                    Nat.sub_eq_zero_of_le h2, List.drop_zero, List.map_append]
                  rfl
            _ = ((ts ++ [t]).drop ((ts ++ [t]).length - cap)).map some := by
                  simp [List.length_append]

/-! ### Claim theorems -/

/-- C7: if the input directory does not exist, the enumeration fails with
an IO error, the failure is fatal for the whole pipeline, and no output
is produced. -/
theorem missing_directory_io_error {α : Type} (sf : String) :
    debug (α := α) sf none = .error .ioError := rfl

/-- C2: each iteration of the per-record loop opens the same path — the
last `.pkl` file of the enumeration — so the run equals inserting that
single record once per enumerated file; the contents of the other
enumerated files never influence the buffers or the output artifacts. -/
theorem last_file_reopened {α : Type} (sf : String) (d : Dir α)
    (e : String × TrajRecord α) (h : (pklEntries d).getLast? = some e) :
    debug sf (some d) =
      (repeatInsertM e.2 (pklEntries d).length (initBuffers α 36090)).map
        (fun bs => ⟨bs.replay_buffer, bs.plain_replay_buffer,
          SAVE_PATH, PLAIN_SAVE_PATH⟩) := by
  have hp := processAll_eq_repeat h (initBuffers α 36090)
  show (processAll d (initBuffers α 36090)).map
      (fun bs => Output.mk bs.replay_buffer bs.plain_replay_buffer
        SAVE_PATH PLAIN_SAVE_PATH) = _
  rw [hp]

/-- Witness for C2: on a directory with two different records, the run
equals two insertions of the last record. -/
theorem last_file_reopened_witness :
    (pklEntries twoRecDir).getLast? = some ("b.pkl", rec2) ∧
    debug "ignored" (some twoRecDir) =
      (repeatInsertM rec2 (pklEntries twoRecDir).length (initBuffers Nat 36090)).map
        (fun bs => ⟨bs.replay_buffer, bs.plain_replay_buffer,
          SAVE_PATH, PLAIN_SAVE_PATH⟩) :=
  ⟨rfl, last_file_reopened "ignored" twoRecDir ("b.pkl", rec2) rfl⟩

/-- C1: evaluation of the code at the failing input of the claim: two
records with valid counts 1 and 2 (sum 3 ≤ capacity), yet both buffers
report 4 inserted transitions, because the loop body re-opens the last
enumerated file instead of the loop variable. -/
theorem last_record_duplicated_sizes :
    ((pklEntries twoRecDir).map (fun e => e.2.pos)).sum = 3 ∧
    (debug "x" (some twoRecDir)).map
      (fun o => (o.saved_replay_buffer.size, o.saved_plain_replay_buffer.size)) =
      .ok (4, 4) :=
  ⟨by decide, by rfl⟩

/-- C3: pairing invariant — at every index holding an inserted
transition, the plain buffer's action, reward, done flag and info equal
the goal-conditioned buffer's values at the same index. -/
theorem pairing_invariant {α : Type} {cap : Nat} {d : Dir α} {bs : Buffers α}
    {i : Nat} {th : Transition (DictObs α) α} {tp : Transition α α}
    (hrun : runPipeline cap d = .ok bs)
    (hher : slotAt bs.replay_buffer i = some th)
    (hplain : slotAt bs.plain_replay_buffer i = some tp) :
    th.action = tp.action ∧ th.reward = tp.reward ∧ th.done = tp.done ∧
    th.infos = tp.infos := by
  have hp := (runPipeline_inv hrun).2.2.2.2.2 i
  rw [hher, hplain] at hp
  exact ⟨hp.1, hp.2.1, hp.2.2.1, hp.2.2.2.1⟩

/-- Witness for C3 at a concrete run and index 0. -/
theorem pairing_invariant_witness :
    (runPipeline 3 oneRecDir = .ok smallBS ∧
      slotAt smallBS.replay_buffer 0 = some ht0 ∧
      slotAt smallBS.plain_replay_buffer 0 = some pt0) ∧
    (ht0.action = pt0.action ∧ ht0.reward = pt0.reward ∧
      ht0.done = pt0.done ∧ ht0.infos = pt0.infos) :=
  ⟨⟨rfl, rfl, rfl⟩,
    pairing_invariant (rfl : runPipeline 3 oneRecDir = Except.ok smallBS)
      (rfl : slotAt smallBS.replay_buffer 0 = some ht0)
      (rfl : slotAt smallBS.plain_replay_buffer 0 = some pt0)⟩

/-- C4: projection invariant — at every index holding an inserted
transition, the plain buffer's observation (and next-observation) equals
the `observation` component of the goal-conditioned buffer's structured
observation (resp. next-observation) at the same index. -/
theorem projection_invariant {α : Type} {cap : Nat} {d : Dir α} {bs : Buffers α}
    {i : Nat} {th : Transition (DictObs α) α} {tp : Transition α α}
    (hrun : runPipeline cap d = .ok bs)
    (hher : slotAt bs.replay_buffer i = some th)
    (hplain : slotAt bs.plain_replay_buffer i = some tp) :
    th.obs.observation = tp.obs ∧ th.next_obs.observation = tp.next_obs := by
  have hp := (runPipeline_inv hrun).2.2.2.2.2 i
  rw [hher, hplain] at hp
  exact ⟨hp.2.2.2.2.1, hp.2.2.2.2.2⟩

/-- Witness for C4 at a concrete run and index 1. -/
theorem projection_invariant_witness :
    (runPipeline 3 oneRecDir = .ok smallBS ∧
      slotAt smallBS.replay_buffer 1 = some ht1 ∧
      slotAt smallBS.plain_replay_buffer 1 = some pt1) ∧
    (ht1.obs.observation = pt1.obs ∧ ht1.next_obs.observation = pt1.next_obs) :=
  ⟨⟨rfl, rfl, rfl⟩,
    projection_invariant (rfl : runPipeline 3 oneRecDir = Except.ok smallBS)
      (rfl : slotAt smallBS.replay_buffer 1 = some ht1)
      (rfl : slotAt smallBS.plain_replay_buffer 1 = some pt1)⟩

/-- C5 counterexample: a record whose declared valid count (10) exceeds
its actual length (3) sits FIRST in the directory; the claim predicts an
aborted run with nothing persisted, but the run succeeds and writes both
outputs, because only the last enumerated file is ever opened. -/
theorem overlong_nonlast_record_ignored :
    minLen badRec < badRec.pos ∧ ("a.pkl", badRec) ∈ pklEntries badFirstDir ∧
    (debug "x" (some badFirstDir)).map (fun o => (o.save_path, o.plain_save_path)) =
      .ok (SAVE_PATH, PLAIN_SAVE_PATH) :=
  ⟨by decide, by decide, by rfl⟩

/-- C5 (amended): if the record the loop actually reads — the last
enumerated `.pkl` record — declares a valid count exceeding its actual
sequence lengths, reconstruction fails with an index error during the
insertion loop, the run aborts, and no output is produced. -/
theorem overlong_last_record_aborts {α : Type} (sf : String) (d : Dir α)
    (e : String × TrajRecord α) (hlast : (pklEntries d).getLast? = some e)
    (hbad : minLen e.2 < e.2.pos) :
    debug sf (some d) = .error .indexError := by
  have hne : pklEntries d ≠ [] := by
    intro hnil
    rw [hnil, List.getLast?_nil] at hlast
    exact Option.noConfusion hlast
  obtain ⟨hd, tl, hcons⟩ := List.exists_cons_of_ne_nil hne
  have hrep := processAll_eq_repeat hlast (initBuffers α 36090)
  have hlen1 : (pklEntries d).length = tl.length + 1 := by rw [hcons]; rfl
  have herr : repeatInsertM e.2 (pklEntries d).length (initBuffers α 36090)
      = .error .indexError := by
    rw [hlen1]
    simp only [repeatInsertM]
    rw [insertRecord_err _ hbad]
  show (processAll d (initBuffers α 36090)).map
      (fun bs => Output.mk bs.replay_buffer bs.plain_replay_buffer
        SAVE_PATH PLAIN_SAVE_PATH) = _
  rw [hrep, herr]
  rfl

/-- Witness for amended C5: the spec's own scenario — a single record
with declared count 10 but 3 actual entries — aborts with an index
error. -/
theorem overlong_last_record_aborts_witness :
    ((pklEntries badOnlyDir).getLast? = some ("bad.pkl", badRec) ∧
      minLen badRec < badRec.pos) ∧
    debug "x" (some badOnlyDir) = .error .indexError :=
  ⟨⟨rfl, by decide⟩,
    overlong_last_record_aborts "x" badOnlyDir ("bad.pkl", badRec) rfl (by decide)⟩

/-- C6: ring overwrite — once more transitions than the capacity have
been inserted, reading the ring from the write cursor yields exactly the
most recently inserted `capacity` transitions, oldest first. -/
theorem ring_overwrite {O α : Type} (cap : Nat) (ts : List (Transition O α))
    (hcap : 0 < cap) (hlt : cap < ts.length) :
    ((addAll cap ts).slots).rotate ((addAll cap ts).pos)
      = (ts.drop (ts.length - cap)).map some :=
  (addAll_spec cap hcap ts).2.2.2.2 (le_of_lt hlt)

/-- Witness for C6: the spec's scenario — capacity 2, one record with
three transitions — retains exactly the transitions at original indices
1 and 2; also checked through the pipeline itself. -/
theorem ring_overwrite_witness :
    ((0 < 2 ∧ 2 < qts.length) ∧
      ((addAll 2 qts).slots).rotate ((addAll 2 qts).pos)
        = (qts.drop (qts.length - 2)).map some ∧
      (qts.drop (qts.length - 2)).map some = [some qt1, some qt2]) ∧
    (runPipeline 2 threeStepDir).map
      (fun bs => (bs.plain_replay_buffer.slots, bs.plain_replay_buffer.pos,
        bs.plain_replay_buffer.full)) = .ok ([some qt2, some qt1], 1, true) :=
  ⟨⟨⟨by decide, by decide⟩, ring_overwrite 2 qts (by decide) (by decide), by decide⟩,
    by rfl⟩

/-- C8 counterexample: the caller-supplied save folder is ignored — two
different caller arguments produce identical results — and capacity and
output paths are the hardcoded constants, refuting that the capacity and
paths are supplied by the caller. -/
theorem config_hardcoded_counterexample :
    debug "/tmp/alternative-save-folder" (some twoRecDir)
      = debug "/tmp/a-different-one" (some twoRecDir) ∧
    (debug "/tmp/alternative-save-folder" (some twoRecDir)).map
      (fun o => (o.saved_replay_buffer.buffer_size,
        o.saved_plain_replay_buffer.buffer_size, o.save_path, o.plain_save_path)) =
      .ok (36090, 36090, SAVE_PATH, PLAIN_SAVE_PATH) :=
  ⟨rfl, by rfl⟩

/-- C8 (amended): both buffers are constructed with the same single
capacity, but that capacity (36090), the input directory and the two
output paths are fixed by the core: every successful run uses capacity
36090 and the hardcoded output paths, independently of the caller's
save-folder argument. -/
theorem config_hardcoded {α : Type} (sf : String) (d : Dir α) (out : Output α)
    (h : debug sf (some d) = .ok out) :
    debug sf (some d) = debug "" (some d) ∧
    out.saved_replay_buffer.buffer_size = 36090 ∧
    out.saved_plain_replay_buffer.buffer_size = 36090 ∧
    out.save_path = SAVE_PATH ∧ out.plain_save_path = PLAIN_SAVE_PATH := by
  refine ⟨rfl, ?_⟩
  have h' : (runPipeline 36090 d).map
      (fun bs => Output.mk bs.replay_buffer bs.plain_replay_buffer
        SAVE_PATH PLAIN_SAVE_PATH) = .ok out := h
  cases hr : runPipeline 36090 d with
  | error e => rw [hr] at h'; exact Except.noConfusion h'
  | ok bs =>
      rw [hr] at h'
      simp only [Except.map, Except.ok.injEq] at h'
      obtain ⟨hinv1, hinv2, -⟩ := runPipeline_inv hr
      rw [← h']
      exact ⟨hinv1, hinv2, rfl, rfl⟩

/-- Witness for amended C8 at a concrete run. -/
theorem config_hardcoded_witness :
    debug "/tmp/elsewhere" (some oneRecDir) = .ok hardOut ∧
    (debug "/tmp/elsewhere" (some oneRecDir) = debug "" (some oneRecDir) ∧
      hardOut.saved_replay_buffer.buffer_size = 36090 ∧
      hardOut.saved_plain_replay_buffer.buffer_size = 36090 ∧
      hardOut.save_path = SAVE_PATH ∧ hardOut.plain_save_path = PLAIN_SAVE_PATH) :=
  ⟨rfl, config_hardcoded "/tmp/elsewhere" oneRecDir hardOut rfl⟩

/-- C9: on a directory with no `.pkl` file the run completes without
error and still produces both output artifacts, each containing an empty
buffer reporting zero inserted transitions. -/
theorem no_pkl_files_ok {α : Type} (sf : String) (d : Dir α)
    (h : pklEntries d = []) :
    debug sf (some d) =
      .ok ⟨RingBuffer.init (DictObs α) α 36090, RingBuffer.init α α 36090,
        SAVE_PATH, PLAIN_SAVE_PATH⟩ ∧
    (RingBuffer.init (DictObs α) α 36090).size = 0 ∧
    (RingBuffer.init α α 36090).size = 0 := by
  refine ⟨?_, rfl, rfl⟩
  show (processAll d (initBuffers α 36090)).map
      (fun bs => Output.mk bs.replay_buffer bs.plain_replay_buffer
        SAVE_PATH PLAIN_SAVE_PATH) = _
  simp only [processAll, h, List.getLast?_nil]
  rfl

/-- Witness for C9 on a directory holding only a non-`.pkl` file. -/
theorem no_pkl_files_ok_witness :
    pklEntries noPklDir = [] ∧
    debug "x" (some noPklDir) =
      .ok ⟨RingBuffer.init (DictObs Nat) Nat 36090, RingBuffer.init Nat Nat 36090,
        SAVE_PATH, PLAIN_SAVE_PATH⟩ :=
  ⟨rfl, (no_pkl_files_ok "x" noPklDir rfl).1⟩

/-- C10: the number of insert calls made to the goal-conditioned buffer
always equals the number made to the plain buffer: each paired insert
preserves the equality of the two counters, and hence it holds at the
end of every successful run. -/
theorem paired_add_counts (α : Type) :
    (∀ (r : TrajRecord α) (i : Nat) (bs bs' : Buffers α),
      bs.replay_buffer.n_adds = bs.plain_replay_buffer.n_adds →
      step r i bs = .ok bs' →
      bs'.replay_buffer.n_adds = bs'.plain_replay_buffer.n_adds) ∧
    (∀ (cap : Nat) (d : Dir α) (bs : Buffers α), runPipeline cap d = .ok bs →
      bs.replay_buffer.n_adds = bs.plain_replay_buffer.n_adds) := by
  constructor
  · intro r i bs bs' hn hstep
    obtain ⟨v, hv, rfl⟩ := step_ok_inv hstep
    show (bs.replay_buffer.add _).n_adds = (bs.plain_replay_buffer.add _).n_adds
    rw [add_n_adds, add_n_adds, hn]
  · intro cap d bs h
    exact (runPipeline_inv h).2.2.2.2.1

/-- Witness for C10 at a concrete run. -/
theorem paired_add_counts_witness :
    runPipeline 3 oneRecDir = .ok smallBS ∧
    smallBS.replay_buffer.n_adds = smallBS.plain_replay_buffer.n_adds :=
  ⟨rfl, (paired_add_counts Nat).2 3 oneRecDir smallBS rfl⟩

end RlZoo3Debug2
